import Mathlib

/-!
Verification development for the trend-scanner repository.

The definitions below are shallow embeddings of the Python source:
- the breakout decision stage of `TrendScanner.scan_trends_with_notification`
  (trend_scanner.py, lines 916-950),
- `TrendAnalyzer.analyze_trend_breakout` (tech_trend_analyzer.py, lines 257-280),
- the adaptive rate limiter `TrendScanner.make_trends_request`
  (trend_scanner.py, lines 1001-1035),
- the time-boxed batch loop of `TrendScanner.scan_all_categories`
  (trend_scanner.py, lines 649-747),
- `TrendScanner.send_telegram_alert` (trend_scanner.py, lines 1217-1246),
- the `main` restart loop (trend_scanner.py, lines 1295-1322).

Interest values are modelled as exact rationals; the z-score, which divides by
a standard deviation (a square root), is modelled as a real number, and the
boolean decision uses an algebraically equivalent rational test, proved
equivalent in `zTestGE3_iff`.
-/

/-- Mean of a list of values, as pandas `Series.mean`.
For an empty list Lean's division by zero yields 0; the one caller with a
possibly empty list guards that case explicitly (see `is_breakout`). -/
def smean (xs : List ℚ) : ℚ := xs.sum / (xs.length : ℚ)

/-- Sample variance (pandas `Series.std` squared, `ddof = 1`): sum of squared
deviations divided by `n - 1`. For `n ≤ 1` the denominator is 0 and Lean's
division yields 0, so the derived standard deviation is 0; pandas yields NaN
there, and the source's only use of the deviation is the comparison
`baseline_std > 0`, which is false for NaN exactly as it is for 0. -/
def svar (xs : List ℚ) : ℚ :=
  (xs.map (fun x => (x - smean xs) ^ 2)).sum / ((xs.length - 1 : ℕ) : ℚ)

/-- pandas `Series.std` on the baseline: square root of the sample variance. -/
noncomputable def baseline_std (xs : List ℚ) : ℝ :=
  Real.sqrt ((svar xs : ℚ) : ℝ)

/-- Maximum of a list of values, as pandas `Series.max` (callers only apply it
to nonempty lists; the empty case is unreachable in the source). -/
def listMax : List ℚ → ℚ
  | [] => 0
  | x :: xs => xs.foldl max x

/-- trend_scanner.py line 927:
`z_score = (max_interest - baseline_avg) / baseline_std if baseline_std > 0 else 0`. -/
noncomputable def z_score (max_interest : ℚ) (base : List ℚ) : ℝ :=
  if 0 < baseline_std base then
    ((max_interest - smean base : ℚ) : ℝ) / baseline_std base
  else 0

/-- Executable form of the source's `z_score >= 3.0` test: for a positive
variance, `(peak - avg) / sqrt var >= 3` holds exactly when `peak - avg` is
nonnegative and its square is at least `9 * var` (see `zTestGE3_iff`); for a
zero variance the source's z-score is 0, below 3. -/
def zTestGE3 (max_interest : ℚ) (base : List ℚ) : Bool :=
  decide (0 < svar base) && decide (smean base ≤ max_interest) &&
    decide (9 * svar base ≤ (max_interest - smean base) ^ 2)

/-- trend_scanner.py lines 918-938: baseline statistics over
`historical_data[:-1]` and the breakout rule
`max_interest >= 90 and max_interest > baseline_max and
 ((max_interest >= baseline_avg * 2.5) or
  (z_score >= 3.0 and max_interest >= baseline_max * 1.3))`.
With an empty baseline pandas produces NaN statistics and every comparison
with NaN is false, so no breakout; the empty case is made explicit here. -/
def is_breakout (max_interest : ℚ) (historical_data : List ℚ) : Bool :=
  if historical_data.dropLast.isEmpty then false
  else
    decide (90 ≤ max_interest) &&
    decide (listMax historical_data.dropLast < max_interest) &&
    (decide (smean historical_data.dropLast * (5/2) ≤ max_interest) ||
      (zTestGE3 max_interest historical_data.dropLast &&
        decide (listMax historical_data.dropLast * (13/10) ≤ max_interest)))

/-- trend_scanner.py line 947: `recent_week_avg = float(historical_data[-7:].mean())`. -/
def recent_week_avg (historical_data : List ℚ) : ℚ :=
  smean (historical_data.drop (historical_data.length - 7))

/-- trend_scanner.py lines 946-950: the stale-momentum guard, applied when at
least 7 points exist: a trailing 7-day average above `baseline_avg * 1.5`
suppresses the alert (`continue`). -/
def stale_guard (historical_data : List ℚ) : Bool :=
  decide (7 ≤ historical_data.length) &&
  decide (smean historical_data.dropLast * (3/2) < recent_week_avg historical_data)

/-- The full decision of the scan path: a breakout result is appended and
notified exactly when the breakout rule fires and the stale-momentum guard
does not trigger (trend_scanner.py lines 930-960). -/
def reportsBreakout (max_interest : ℚ) (historical_data : List ℚ) : Bool :=
  is_breakout max_interest historical_data && !(stale_guard historical_data)

lemma svar_nonneg (xs : List ℚ) : 0 ≤ svar xs := by
  unfold svar
  apply div_nonneg
  · apply List.sum_nonneg
    intro y hy
    simp only [List.mem_map] at hy
    obtain ⟨x, _, rfl⟩ := hy
    positivity
  · positivity

/-- The executable z-test agrees with the source's `z_score >= 3.0` comparison. -/
lemma zTestGE3_iff (peak : ℚ) (base : List ℚ) :
    zTestGE3 peak base = true ↔ (3 : ℝ) ≤ z_score peak base := by
  unfold zTestGE3 z_score baseline_std
  simp only [Bool.and_eq_true, decide_eq_true_eq]
  by_cases hv : 0 < svar base
  · have hvR : (0 : ℝ) < ((svar base : ℚ) : ℝ) := by exact_mod_cast hv
    have hstd : 0 < Real.sqrt ((svar base : ℚ) : ℝ) := Real.sqrt_pos.mpr hvR
    have hs2 : Real.sqrt ((svar base : ℚ) : ℝ) ^ 2 = ((svar base : ℚ) : ℝ) :=
      Real.sq_sqrt hvR.le
    rw [if_pos hstd, le_div_iff₀ hstd]
    constructor
    · rintro ⟨⟨_, hd⟩, hsq⟩
      have hdR : (0 : ℝ) ≤ ((peak - smean base : ℚ) : ℝ) := by
        exact_mod_cast sub_nonneg.mpr hd
      have hsqR : (9 : ℝ) * ((svar base : ℚ) : ℝ) ≤ ((peak - smean base : ℚ) : ℝ) ^ 2 := by
        exact_mod_cast hsq
      have h9 : Real.sqrt (9 * ((svar base : ℚ) : ℝ)) ≤ ((peak - smean base : ℚ) : ℝ) := by
        have := Real.sqrt_le_sqrt hsqR
        rwa [Real.sqrt_sq hdR] at this
      have h3 : Real.sqrt (9 : ℝ) = 3 := by
        rw [show (9:ℝ) = 3 ^ 2 by norm_num, Real.sqrt_sq (by norm_num : (0:ℝ) ≤ 3)]
      rw [Real.sqrt_mul (by norm_num : (0:ℝ) ≤ 9), h3] at h9
      exact h9
    · intro h
      have hdR : (0 : ℝ) ≤ ((peak - smean base : ℚ) : ℝ) :=
        le_trans (by positivity) h
      refine ⟨⟨hv, ?_⟩, ?_⟩
      · have hdQ : (0 : ℚ) ≤ peak - smean base := by exact_mod_cast hdR
        linarith
      · have hpow : (3 * Real.sqrt ((svar base : ℚ) : ℝ)) ^ 2 ≤
            ((peak - smean base : ℚ) : ℝ) ^ 2 :=
          pow_le_pow_left₀ (by positivity) h 2
        have hsq : (9 : ℝ) * ((svar base : ℚ) : ℝ) ≤ ((peak - smean base : ℚ) : ℝ) ^ 2 := by
          nlinarith [hpow, hs2]
        exact_mod_cast hsq
  · have hv0 : svar base = 0 := le_antisymm (not_lt.mp hv) (svar_nonneg base)
    rw [hv0]
    simp

/-- C1: the scan path reports a breakout for a term exactly when all of the
following hold on the series: `peak ≥ 90`, `peak > baseline_max`, and either
`peak ≥ 2.5 * baseline_avg` or (`z ≥ 3.0` and `peak ≥ 1.3 * baseline_max`),
and the stale-momentum guard does not trigger (at least 7 points and a
trailing 7-day average above `1.5 * baseline_avg` would suppress the alert).
The baseline is `historical_data[:-1]`; the hypothesis excludes the degenerate
empty baseline, where pandas produces NaN statistics. -/
theorem breakout_fires_iff (peak : ℚ) (hist : List ℚ)
    (hbase : hist.dropLast ≠ []) :
    reportsBreakout peak hist = true ↔
      (90 ≤ peak ∧
       listMax hist.dropLast < peak ∧
       (smean hist.dropLast * (5/2) ≤ peak ∨
         ((3 : ℝ) ≤ z_score peak hist.dropLast ∧
          listMax hist.dropLast * (13/10) ≤ peak)) ∧
       ¬(7 ≤ hist.length ∧
         smean hist.dropLast * (3/2) < recent_week_avg hist)) := by
  unfold reportsBreakout is_breakout stale_guard
  rw [if_neg (by simpa [List.isEmpty_iff] using hbase)]
  simp only [Bool.and_eq_true, Bool.or_eq_true, Bool.not_eq_true',
    Bool.and_eq_false_iff, decide_eq_true_eq, decide_eq_false_iff_not,
    zTestGE3_iff]
  tauto

/-- Witness for C1: the series of eight constant values 20 with a peak of 95
satisfies the rule (path 1: 95 ≥ 2.5 * 20) and does not trip the guard, and
the theorem applied there yields a reported breakout. -/
theorem breakout_fires_iff_witness :
    ([20, 20, 20, 20, 20, 20, 20, 20] : List ℚ).dropLast ≠ [] ∧
    reportsBreakout 95 [20, 20, 20, 20, 20, 20, 20, 20] = true := by
  constructor
  · simp
  · refine (breakout_fires_iff 95 [20, 20, 20, 20, 20, 20, 20, 20] (by simp)).mpr
      ⟨by norm_num, ?_, Or.inl ?_, ?_⟩
    · norm_num [listMax]
    · norm_num [smean]
    · rintro ⟨-, hweek⟩
      norm_num [smean, recent_week_avg] at hweek

/-- C6: whenever the baseline standard deviation is zero, the z-score used in
the breakout decision is exactly zero (trend_scanner.py line 927 guards the
division with `if baseline_std > 0 else 0`), and the z-path of the decision
cannot fire. -/
theorem z_score_zero_of_std_zero (peak : ℚ) (base : List ℚ)
    (h : baseline_std base = 0) :
    z_score peak base = 0 ∧ zTestGE3 peak base = false := by
  constructor
  · unfold z_score
    rw [h]
    simp
  · have hv : ¬ (0 < svar base) := by
      intro hv
      have : 0 < baseline_std base :=
        Real.sqrt_pos.mpr (by exact_mod_cast hv)
      rw [h] at this
      exact lt_irrefl _ this
    unfold zTestGE3
    simp [hv]

/-- Witness for C6: a constant baseline has zero standard deviation, and the
theorem applied there gives a zero z-score. -/
theorem z_score_zero_of_std_zero_witness :
    baseline_std [20, 20] = 0 ∧
    (z_score 95 [20, 20] = 0 ∧ zTestGE3 95 [20, 20] = false) := by
  have h : baseline_std [20, 20] = 0 := by
    unfold baseline_std
    rw [show svar [20, 20] = 0 by norm_num [svar, smean]]
    simp
  exact ⟨h, z_score_zero_of_std_zero 95 [20, 20] h⟩

/-- A point of a provider series: a day index and an interest value
(tech_trend_analyzer.py works on a date-indexed pandas Series). -/
structure TrendPoint where
  day : ℤ
  value : ℚ
deriving DecidableEq

/-- tech_trend_analyzer.py lines 257-280, `TrendAnalyzer.analyze_trend_breakout`:
returns `(is_breakout, historical_avg, current_value, current_start, current_end)`.
A missing series or one with fewer than 30 points yields
`(False, 0, 0, None, None)`; otherwise the historical window is the slice from
90 days before the most recent date up to the day before it, and the rule is
`historical_avg <= 25 and current_value >= 90`. -/
def analyze_trend_breakout (trend_data : Option (List TrendPoint)) :
    Bool × ℚ × ℚ × Option ℤ × Option ℤ :=
  match trend_data with
  | none => (false, 0, 0, none, none)
  | some pts =>
    if pts.length < 30 then (false, 0, 0, none, none)
    else
      let current := pts.getLastD ⟨0, 0⟩
      let historical := pts.filter (fun p =>
        decide (current.day - 90 ≤ p.day) && decide (p.day ≤ current.day - 1))
      let historical_avg := smean (historical.map (fun p => p.value))
      ((decide (historical_avg ≤ 25) && decide (90 ≤ current.value)),
        historical_avg, current.value, some current.day, some current.day)

/-- Counterexample for C2 as stated: the trend_scanner breakout evaluation
(the one specified in C1) has no minimum-length guard, and fires on this
series of only 5 points. -/
theorem short_series_fires_counterexample :
    ([10, 10, 10, 10, 10] : List ℚ).length < 30 ∧
    reportsBreakout 95 [10, 10, 10, 10, 10] = true := by
  constructor
  · norm_num
  · norm_num [reportsBreakout, is_breakout, stale_guard, zTestGE3, smean,
      svar, listMax, recent_week_avg]

/-- C2 (amended): the `analyze_trend_breakout` evaluation of
tech_trend_analyzer returns "no breakout" for every missing series and every
series with fewer than 30 data points, regardless of the values. -/
theorem analyze_short_series_no_breakout (td : Option (List TrendPoint))
    (h : td = none ∨ ∃ pts, td = some pts ∧ pts.length < 30) :
    (analyze_trend_breakout td).1 = false := by
  rcases h with h | ⟨pts, rfl, hlen⟩
  · rw [h]
    rfl
  · simp [analyze_trend_breakout, hlen]

/-- Witness for C2's amended claim at a concrete 5-point series. -/
theorem analyze_short_series_no_breakout_witness :
    (some (List.replicate 5 (⟨0, 95⟩ : TrendPoint)) = none ∨
      ∃ pts, some (List.replicate 5 (⟨0, 95⟩ : TrendPoint)) = some pts ∧
        pts.length < 30) ∧
    (analyze_trend_breakout (some (List.replicate 5 ⟨0, 95⟩))).1 = false := by
  have h : some (List.replicate 5 (⟨0, 95⟩ : TrendPoint)) = none ∨
      ∃ pts, some (List.replicate 5 (⟨0, 95⟩ : TrendPoint)) = some pts ∧
        pts.length < 30 :=
    Or.inr ⟨List.replicate 5 ⟨0, 95⟩, rfl, by norm_num⟩
  exact ⟨h, analyze_short_series_no_breakout _ h⟩

/-- The rate-limiter state of `TrendScanner.__init__` (trend_scanner.py lines
68-73): in-window request count, window start time, consecutive 429 count and
current base delay. -/
structure RLState where
  request_count : ℕ
  last_request_time : ℚ
  consecutive_429s : ℤ
  base_delay : ℚ
deriving DecidableEq

/-- Initial rate-limiter state: count 0, window starting at the construction
time, zero consecutive 429s, 5-second base delay. -/
def initRL (t0 : ℚ) : RLState :=
  { request_count := 0, last_request_time := t0, consecutive_429s := 0, base_delay := 5 }

/-- trend_scanner.py lines 1007-1015: when a minute has elapsed, reset the
in-window counter, decay `consecutive_429s` by one floored at 0, restart the
window, and lower `base_delay` by one (floored at 5) if no failures remain. -/
def windowReset (s : RLState) (now : ℚ) : RLState :=
  if 60 ≤ now - s.last_request_time then
    { request_count := 0
      last_request_time := now
      consecutive_429s := max 0 (s.consecutive_429s - 1)
      base_delay :=
        if max 0 (s.consecutive_429s - 1) = 0 then max 5 (s.base_delay - 1)
        else s.base_delay }
  else s

/-- Outcome of the wrapped provider call: a value, a rate-limit (429) error,
or any other error. -/
inductive CallResult (α : Type) where
  | ok (a : α)
  | err429
  | errOther
deriving DecidableEq

/-- The error surfaced by the rate-limited request wrapper. -/
inductive RLError where
  | rate429
  | other
deriving DecidableEq

/-- Observable effects of one `make_trends_request` call: the new state, the
base of the adaptive pre-call delay (the actual sleep is sampled uniformly
from `[preDelay, 1.5 * preDelay]`), the extra cooldown sleep, and the returned
or re-raised outcome. -/
structure ReqOut (α : Type) where
  state : RLState
  preDelay : ℚ
  cooldown : ℚ
  result : Except RLError α

/-- trend_scanner.py line 71: `self.cooldown_minutes = 1` (never reassigned). -/
def cooldown_minutes : ℚ := 1

/-- trend_scanner.py lines 1001-1035, `TrendScanner.make_trends_request`:
window bookkeeping, adaptive delay `base_delay * (1 + consecutive_429s)`,
then the wrapped call; a 429 increments the failure count, raises the base
delay by 5 capped at 30, sleeps `cooldown_minutes * 60` and re-raises; any
other error re-raises unchanged; success increments the request count and
returns the wrapped result. -/
def make_trends_request {α : Type} (s : RLState) (now : ℚ)
    (call : CallResult α) : ReqOut α :=
  let s1 := windowReset s now
  let pre := s1.base_delay * (1 + (s1.consecutive_429s : ℚ))
  match call with
  | CallResult.ok a =>
      ⟨{ s1 with request_count := s1.request_count + 1 }, pre, 0, Except.ok a⟩
  | CallResult.err429 =>
      ⟨{ s1 with
          consecutive_429s := s1.consecutive_429s + 1
          base_delay := min 30 (s1.base_delay + 5) },
        pre, cooldown_minutes * 60, Except.error RLError.rate429⟩
  | CallResult.errOther => ⟨s1, pre, 0, Except.error RLError.other⟩

/-- Iterated rate-limited requests: fold `make_trends_request` over a sequence
of (time, wrapped-call outcome) events. -/
def runRL {α : Type} (s : RLState) : List (ℚ × CallResult α) → RLState
  | [] => s
  | (t, c) :: rest => runRL (make_trends_request s t c).state rest

/-- The rate-limiter state invariant: the consecutive-429 count is never
negative and the base delay stays in the [5, 30] band. -/
def RLInv (s : RLState) : Prop :=
  0 ≤ s.consecutive_429s ∧ 5 ≤ s.base_delay ∧ s.base_delay ≤ 30

lemma windowReset_inv (s : RLState) (now : ℚ) (h : RLInv s) :
    RLInv (windowReset s now) := by
  obtain ⟨h1, h2, h3⟩ := h
  unfold RLInv windowReset
  split
  · refine ⟨le_max_left _ _, ?_, ?_⟩
    · dsimp only
      split
      · exact le_max_left _ _
      · exact h2
    · dsimp only
      split
      · exact max_le (by norm_num) (by linarith)
      · exact h3
  · exact ⟨h1, h2, h3⟩

lemma windowReset_base_delay_lb (s : RLState) (now : ℚ) :
    s.base_delay - 1 ≤ (windowReset s now).base_delay := by
  unfold windowReset
  split
  · dsimp only
    split
    · exact le_max_right _ _
    · linarith
  · linarith

lemma make_trends_request_inv {α : Type} (s : RLState) (now : ℚ)
    (call : CallResult α) (h : RLInv s) :
    RLInv (make_trends_request s now call).state := by
  obtain ⟨g1, g2, g3⟩ := windowReset_inv s now h
  cases call with
  | ok a =>
      simp only [RLInv, make_trends_request]
      exact ⟨g1, g2, g3⟩
  | err429 =>
      simp only [RLInv, make_trends_request]
      exact ⟨by linarith, le_min (by norm_num) (by linarith), min_le_left _ _⟩
  | errOther =>
      simp only [RLInv, make_trends_request]
      exact ⟨g1, g2, g3⟩

lemma runRL_inv {α : Type} (s : RLState)
    (tr : List (ℚ × CallResult α)) (h : RLInv s) : RLInv (runRL s tr) := by
  induction tr generalizing s with
  | nil => exact h
  | cons p rest ih =>
      exact ih _ (make_trends_request_inv s p.1 p.2 h)

lemma make_trends_request_429_mono {α : Type} (s : RLState) (now : ℚ)
    (h : RLInv s) :
    s.base_delay ≤ (make_trends_request s now (CallResult.err429 : CallResult α)).state.base_delay := by
  obtain ⟨-, -, h3⟩ := h
  have hlb := windowReset_base_delay_lb s now
  unfold make_trends_request
  dsimp only
  exact le_min h3 (by linarith)

/-- C4: starting from any state satisfying the rate-limiter invariant, the
invariant (nonnegative consecutive-429 count, base delay within [5, 30]) is
preserved by every sequence of rate-limited requests; the base delay is
monotonically non-decreasing along a run of consecutive 429 outcomes; and at
a 60-second window boundary the in-window counter resets to 0 and the
consecutive-429 count is decremented by exactly one, floored at 0. -/
theorem rate_limiter_invariants {α : Type} (s : RLState) (h : RLInv s) :
    (∀ tr : List (ℚ × CallResult α), RLInv (runRL s tr)) ∧
    (∀ tr : List (ℚ × CallResult α), 0 ≤ (runRL s tr).consecutive_429s) ∧
    (∀ tr : List (ℚ × CallResult α),
      (∀ p ∈ tr, p.2 = CallResult.err429) →
      s.base_delay ≤ (runRL s tr).base_delay) ∧
    (∀ now : ℚ, 60 ≤ now - s.last_request_time →
      (windowReset s now).request_count = 0 ∧
      (windowReset s now).consecutive_429s = max 0 (s.consecutive_429s - 1)) := by
  refine ⟨fun tr => runRL_inv s tr h, fun tr => (runRL_inv s tr h).1, ?_, ?_⟩
  · intro tr
    induction tr generalizing s h with
    | nil => intro _; exact le_refl _
    | cons p rest ih =>
        intro htr
        have hp : p.2 = CallResult.err429 := htr p (List.mem_cons_self p rest)
        have hstep : s.base_delay ≤ (make_trends_request s p.1 p.2).state.base_delay := by
          rw [hp]
          exact make_trends_request_429_mono s p.1 h
        have hrest := ih (make_trends_request s p.1 p.2).state
          (make_trends_request_inv s p.1 p.2 h)
          (fun q hq => htr q (List.mem_cons_of_mem p hq))
        calc s.base_delay ≤ (make_trends_request s p.1 p.2).state.base_delay := hstep
          _ ≤ (runRL (make_trends_request s p.1 p.2).state rest).base_delay := hrest
  · intro now hnow
    unfold windowReset
    rw [if_pos hnow]
    exact ⟨rfl, rfl⟩

/-- Witness for C4 at the initial state and a concrete event trace. -/
theorem rate_limiter_invariants_witness :
    RLInv (initRL 0) ∧
    ((∀ tr : List (ℚ × CallResult ℕ), RLInv (runRL (initRL 0) tr)) ∧
     (∀ tr : List (ℚ × CallResult ℕ), 0 ≤ (runRL (initRL 0) tr).consecutive_429s) ∧
     (∀ tr : List (ℚ × CallResult ℕ),
       (∀ p ∈ tr, p.2 = CallResult.err429) →
       (initRL 0).base_delay ≤ (runRL (initRL 0) tr).base_delay) ∧
     (∀ now : ℚ, 60 ≤ now - (initRL 0).last_request_time →
       (windowReset (initRL 0) now).request_count = 0 ∧
       (windowReset (initRL 0) now).consecutive_429s =
         max 0 ((initRL 0).consecutive_429s - 1))) := by
  have h : RLInv (initRL 0) := by
    unfold RLInv initRL
    norm_num
  exact ⟨h, rate_limiter_invariants (initRL 0) h⟩

/-- C5: when the wrapped call reports a 429 (with no window boundary crossed,
so the pre-call bookkeeping leaves the state unchanged), the operation
increments the consecutive-failure count, raises the base delay by exactly 5
seconds capped at 30, sleeps the fixed 60-second cooldown, and re-raises the
rate-limit error; and for every call outcome the operation either returns the
wrapped call's value or surfaces an error — it never silently drops a call. -/
theorem rate_limited_request_429 {α : Type} (s : RLState) (now : ℚ)
    (hwin : now - s.last_request_time < 60) :
    ((make_trends_request s now (CallResult.err429 : CallResult α)).state.consecutive_429s
        = s.consecutive_429s + 1 ∧
     (make_trends_request s now (CallResult.err429 : CallResult α)).state.base_delay
        = min 30 (s.base_delay + 5) ∧
     (make_trends_request s now (CallResult.err429 : CallResult α)).cooldown = 60 ∧
     (make_trends_request s now (CallResult.err429 : CallResult α)).result
        = Except.error RLError.rate429) ∧
    (∀ a : α, (make_trends_request s now (CallResult.ok a)).result = Except.ok a) ∧
    (∀ call : CallResult α,
      (∃ a, (make_trends_request s now call).result = Except.ok a) ∨
      (∃ e, (make_trends_request s now call).result = Except.error e)) := by
  have hs1 : windowReset s now = s := by
    unfold windowReset
    rw [if_neg (by linarith)]
  refine ⟨?_, ?_, ?_⟩
  · unfold make_trends_request
    rw [hs1]
    exact ⟨rfl, rfl, by norm_num [cooldown_minutes], rfl⟩
  · intro a
    rfl
  · intro call
    cases call with
    | ok a => exact Or.inl ⟨a, rfl⟩
    | err429 => exact Or.inr ⟨RLError.rate429, rfl⟩
    | errOther => exact Or.inr ⟨RLError.other, rfl⟩

/-- Witness for C5 at the initial state with the clock at time 0. -/
theorem rate_limited_request_429_witness :
    ((0 : ℚ) - (initRL 0).last_request_time < 60) ∧
    (((make_trends_request (initRL 0) 0 (CallResult.err429 : CallResult ℕ)).state.consecutive_429s
        = (initRL 0).consecutive_429s + 1 ∧
      (make_trends_request (initRL 0) 0 (CallResult.err429 : CallResult ℕ)).state.base_delay
        = min 30 ((initRL 0).base_delay + 5) ∧
      (make_trends_request (initRL 0) 0 (CallResult.err429 : CallResult ℕ)).cooldown = 60 ∧
      (make_trends_request (initRL 0) 0 (CallResult.err429 : CallResult ℕ)).result
        = Except.error RLError.rate429) ∧
     (∀ a : ℕ, (make_trends_request (initRL 0) 0 (CallResult.ok a)).result = Except.ok a) ∧
     (∀ call : CallResult ℕ,
       (∃ a, (make_trends_request (initRL 0) 0 call).result = Except.ok a) ∨
       (∃ e, (make_trends_request (initRL 0) 0 call).result = Except.error e))) := by
  have hwin : (0 : ℚ) - (initRL 0).last_request_time < 60 := by
    unfold initRL
    norm_num
  exact ⟨hwin, rate_limited_request_429 (initRL 0) 0 hwin⟩

/-- The inner batch loop of `TrendScanner.scan_all_categories`
(trend_scanner.py lines 660-720): starting from an elapsed time within the
current batch, keep consuming categories while the elapsed wall-clock time is
below the ceiling (the check `>= 900 -> break` runs before each category);
every taken category advances `current_index` by exactly one on every path.
Returns the batch and the remaining categories. `dur` gives each category's
processing duration. -/
def splitBatch {α : Type} (T : ℚ) (dur : α → ℚ) : ℚ → List α → List α × List α
  | _, [] => ([], [])
  | elapsed, c :: rest =>
      if T ≤ elapsed then ([], c :: rest)
      else
        ((c :: (splitBatch T dur (elapsed + dur c) rest).1),
          (splitBatch T dur (elapsed + dur c) rest).2)

/-- The outer batch loop (trend_scanner.py lines 654-747): repeat
time-boxed batches until the category list is exhausted. Fuel-indexed for
termination; `scan_batches` instantiates the fuel with the list length,
which suffices because every batch consumes at least one category. -/
def runBatchesAux {α : Type} (T : ℚ) (dur : α → ℚ) : ℕ → List α → List (List α)
  | 0, _ => []
  | _ + 1, [] => []
  | fuel + 1, c :: rest =>
      (splitBatch T dur 0 (c :: rest)).1 ::
        runBatchesAux T dur fuel (splitBatch T dur 0 (c :: rest)).2

/-- The batches produced by one full scan over the catalog. -/
def scan_batches {α : Type} (T : ℚ) (dur : α → ℚ) (cats : List α) :
    List (List α) :=
  runBatchesAux T dur cats.length cats

lemma splitBatch_append {α : Type} (T : ℚ) (dur : α → ℚ) (l : List α) :
    ∀ e : ℚ, (splitBatch T dur e l).1 ++ (splitBatch T dur e l).2 = l := by
  induction l with
  | nil => intro e; rfl
  | cons c rest ih =>
      intro e
      unfold splitBatch
      split
      · rfl
      · dsimp only
        rw [List.cons_append, ih (e + dur c)]

lemma splitBatch_fst_ne_nil {α : Type} (T : ℚ) (dur : α → ℚ) (c : α)
    (rest : List α) (e : ℚ) (he : e < T) :
    (splitBatch T dur e (c :: rest)).1 ≠ [] := by
  unfold splitBatch
  rw [if_neg (not_le.mpr he)]
  simp

lemma splitBatch_snd_lt {α : Type} (T : ℚ) (dur : α → ℚ) (c : α)
    (rest : List α) (e : ℚ) (he : e < T) :
    (splitBatch T dur e (c :: rest)).2.length < (c :: rest).length := by
  have happ := splitBatch_append T dur (c :: rest) e
  have hlen := congrArg List.length happ
  rw [List.length_append] at hlen
  have hfst := splitBatch_fst_ne_nil T dur c rest e he
  have : 0 < (splitBatch T dur e (c :: rest)).1.length :=
    List.length_pos.mpr hfst
  omega

lemma splitBatch_dropLast_lt {α : Type} (T : ℚ) (dur : α → ℚ) (l : List α) :
    ∀ e : ℚ, (splitBatch T dur e l).1 ≠ [] →
      e + (((splitBatch T dur e l).1.dropLast.map dur)).sum < T := by
  induction l with
  | nil => intro e h; exact absurd rfl h
  | cons c rest ih =>
      intro e h
      by_cases he : T ≤ e
      · rw [splitBatch, if_pos he] at h
        exact absurd rfl h
      · rw [splitBatch, if_neg he] at h ⊢
        dsimp only at h ⊢
        rcases hp : (splitBatch T dur (e + dur c) rest).1 with - | ⟨d, ds⟩
        · simp only [hp, List.dropLast_single, List.map_nil, List.sum_nil,
            add_zero]
          exact not_le.mp he
        · have hne : (splitBatch T dur (e + dur c) rest).1 ≠ [] := by
            rw [hp]
            simp
          have hrec := ih (e + dur c) hne
          rw [hp] at hrec
          rw [List.dropLast_cons₂, List.map_cons, List.sum_cons]
          linarith

lemma runBatchesAux_flatten {α : Type} (T : ℚ) (dur : α → ℚ) (hT : 0 < T) :
    ∀ (fuel : ℕ) (cats : List α), cats.length ≤ fuel →
      (runBatchesAux T dur fuel cats).flatten = cats := by
  intro fuel
  induction fuel with
  | zero =>
      intro cats h
      rw [List.length_eq_zero.mp (Nat.le_zero.mp h)]
      rfl
  | succ fuel ih =>
      intro cats h
      cases cats with
      | nil => rfl
      | cons c rest =>
          have hlt := splitBatch_snd_lt T dur c rest 0 hT
          rw [runBatchesAux, List.flatten_cons, ih _ (by omega)]
          exact splitBatch_append T dur (c :: rest) 0

lemma runBatchesAux_mem {α : Type} (T : ℚ) (dur : α → ℚ) (hT : 0 < T) :
    ∀ (fuel : ℕ) (cats : List α), cats.length ≤ fuel →
      ∀ b ∈ runBatchesAux T dur fuel cats,
        b ≠ [] ∧ ((b.dropLast.map dur)).sum < T := by
  intro fuel
  induction fuel with
  | zero =>
      intro cats _ b hb
      exact absurd hb (by simp [runBatchesAux])
  | succ fuel ih =>
      intro cats h b hb
      cases cats with
      | nil => exact absurd hb (by simp [runBatchesAux])
      | cons c rest =>
          rw [runBatchesAux, List.mem_cons] at hb
          rcases hb with rfl | hb
          · have hne := splitBatch_fst_ne_nil T dur c rest 0 hT
            have hsum := splitBatch_dropLast_lt T dur (c :: rest) 0 hne
            rw [zero_add] at hsum
            exact ⟨hne, hsum⟩
          · have hlt := splitBatch_snd_lt T dur c rest 0 hT
            exact ih _ (by omega) b hb

/-- C7: for every catalog and positive batch time ceiling, the batch loop of
`scan_all_categories` partitions the catalog exactly — concatenating the
batches gives back the category list, so each category is processed exactly
once, with no duplication and no omission — and each batch is bounded by the
ceiling in the sense the code enforces: every category of a batch starts
while the elapsed batch time is below the ceiling, so the batch's duration
before its last category is below the ceiling. -/
theorem batch_partition {α : Type} (T : ℚ) (dur : α → ℚ) (cats : List α)
    (hT : 0 < T) :
    (scan_batches T dur cats).flatten = cats ∧
    ∀ b ∈ scan_batches T dur cats,
      b ≠ [] ∧ ((b.dropLast.map dur)).sum < T := by
  exact ⟨runBatchesAux_flatten T dur hT cats.length cats (le_refl _),
    runBatchesAux_mem T dur hT cats.length cats (le_refl _)⟩

/-- Witness for C7 at a concrete catalog of three categories of 400 seconds
each with a 900-second ceiling. -/
theorem batch_partition_witness :
    (0 : ℚ) < 900 ∧
    ((scan_batches 900 (fun _ => (400 : ℚ)) [1, 2, 3]).flatten = [1, 2, 3] ∧
     ∀ b ∈ scan_batches 900 (fun _ => (400 : ℚ)) [1, 2, 3],
       b ≠ [] ∧ ((b.dropLast.map (fun _ => (400 : ℚ)))).sum < 900) := by
  exact ⟨by norm_num, batch_partition 900 (fun _ => (400 : ℚ)) [1, 2, 3] (by norm_num)⟩

/-- A catalog entry: a category name with its search-term list (the `stocks`
map plays no role in the batch bookkeeping). -/
structure Category where
  name : String
  search_terms : List String
deriving DecidableEq

/-- The error escaping the batch summary: Python's ZeroDivisionError. -/
inductive ScanError where
  | zeroDivision
deriving DecidableEq

/-- trend_scanner.py line 714: `terms_in_current_batch += len(search_terms)`,
accumulated over the categories taken in the batch (a category with an empty
term list is skipped before the increment, contributing 0 either way). -/
def batch_terms_count (b : List Category) : ℕ :=
  (b.map (fun c => c.search_terms.length)).sum

/-- trend_scanner.py line 733: the batch summary computes
`duration / terms_in_current_batch`; Python division raises
ZeroDivisionError when the counter is 0, and nothing guards it. -/
def batch_summary_avg (duration : ℚ) (terms_in_batch : ℕ) :
    Except ScanError ℚ :=
  if terms_in_batch = 0 then Except.error ScanError.zeroDivision
  else Except.ok (duration / (terms_in_batch : ℚ))

/-- The per-batch summary block, run after each batch of the outer loop; an
exception raised there is not caught inside `scan_all_categories`. -/
def run_batch_summaries (dur : Category → ℚ) :
    List (List Category) → Except ScanError Unit
  | [] => Except.ok ()
  | b :: rest =>
      match batch_summary_avg ((b.map dur).sum) (batch_terms_count b) with
      | Except.error e => Except.error e
      | Except.ok _ => run_batch_summaries dur rest

/-- `TrendScanner.scan_all_categories` as seen by its caller: the batches are
produced and after each one the summary block runs; a ZeroDivisionError in a
summary escapes the function, otherwise the processed batches are returned. -/
def scan_all_categories (T : ℚ) (dur : Category → ℚ) (cats : List Category) :
    Except ScanError (List (List Category)) :=
  match run_batch_summaries dur (scan_batches T dur cats) with
  | Except.error e => Except.error e
  | Except.ok _ => Except.ok (scan_batches T dur cats)

/-- Outcome of one iteration of `run_continuous_scan` (trend_scanner.py lines
585-628): an exception escaping the scan is caught at the cycle level, logged,
and the scanner restarts after a 60-second sleep. -/
inductive CycleOutcome where
  | completed
  | restartAfter60
deriving DecidableEq

/-- One scan cycle: run `scan_all_categories`; any escaping error makes the
cycle loop sleep 60 seconds and restart. -/
def scan_cycle_step (T : ℚ) (dur : Category → ℚ) (cats : List Category) :
    CycleOutcome :=
  match scan_all_categories T dur cats with
  | Except.error _ => CycleOutcome.restartAfter60
  | Except.ok _ => CycleOutcome.completed

/-- C10: if every category of the catalog has an empty search-term list, the
first batch ends with a zero processed-terms counter, the batch summary's
division raises ZeroDivisionError, the error escapes `scan_all_categories`,
and the scan cycle is aborted (the cycle loop restarts after its cooldown). -/
theorem empty_terms_batch_zero_division (T : ℚ) (dur : Category → ℚ)
    (cats : List Category) (hne : cats ≠ [])
    (hempty : ∀ c ∈ cats, c.search_terms = []) :
    scan_all_categories T dur cats = Except.error ScanError.zeroDivision ∧
    scan_cycle_step T dur cats = CycleOutcome.restartAfter60 := by
  obtain ⟨c, rest, rfl⟩ := List.exists_cons_of_ne_nil hne
  have hbatch : scan_batches T dur (c :: rest) =
      (splitBatch T dur 0 (c :: rest)).1 ::
        runBatchesAux T dur rest.length (splitBatch T dur 0 (c :: rest)).2 := by
    rfl
  have hzero : batch_terms_count (splitBatch T dur 0 (c :: rest)).1 = 0 := by
    apply List.sum_eq_zero
    intro x hx
    simp only [List.mem_map] at hx
    obtain ⟨cat, hcat, rfl⟩ := hx
    have hmem : cat ∈ c :: rest := by
      rw [← splitBatch_append T dur (c :: rest) 0]
      exact List.mem_append_left _ hcat
    rw [hempty cat hmem]
    rfl
  have hsum : run_batch_summaries dur (scan_batches T dur (c :: rest)) =
      Except.error ScanError.zeroDivision := by
    rw [hbatch]
    unfold run_batch_summaries
    rw [show batch_summary_avg (((splitBatch T dur 0 (c :: rest)).1.map dur).sum)
          (batch_terms_count (splitBatch T dur 0 (c :: rest)).1) =
        Except.error ScanError.zeroDivision by
      rw [hzero]
      rfl]
  constructor
  · unfold scan_all_categories
    rw [hsum]
  · unfold scan_cycle_step scan_all_categories
    rw [hsum]

/-- Witness for C10 at a catalog of one category with no search terms. -/
theorem empty_terms_batch_zero_division_witness :
    ([Category.mk "X" []] ≠ [] ∧
      ∀ c ∈ [Category.mk "X" []], c.search_terms = []) ∧
    (scan_all_categories 900 (fun _ => 0) [Category.mk "X" []] =
        Except.error ScanError.zeroDivision ∧
     scan_cycle_step 900 (fun _ => 0) [Category.mk "X" []] =
        CycleOutcome.restartAfter60) := by
  have h2 : [Category.mk "X" []] ≠ [] := by simp
  have h3 : ∀ c ∈ [Category.mk "X" []], c.search_terms = [] := by
    intro c hc
    simp only [List.mem_singleton] at hc
    rw [hc]
  exact ⟨⟨h2, h3⟩,
    empty_terms_batch_zero_division 900 (fun _ => 0) [Category.mk "X" []] h2 h3⟩

/-- Per-recipient outcome of `send_telegram_alert`: delivered, rejected with a
ValueError on `int(chat_id)` (logged as an invalid id), or a provider send
failure (logged; the loop continues). -/
inductive SendResult where
  | sent (chat : ℤ)
  | invalidId (raw : String)
  | failed (chat : ℤ)
deriving DecidableEq

/-- trend_scanner.py lines 1229-1230: `if chat_id > 0: chat_id = -chat_id` —
positive ids are sign-flipped to the group-chat form before sending. -/
def normalizeChat (n : ℤ) : ℤ := if 0 < n then -n else n

/-- Processing of one configured recipient (trend_scanner.py lines 1224-1243):
parse the raw id (Python `int(chat_id.strip())`, modelled by the abstract
`parseId`, with `none` standing for the ValueError path), sign-flip a positive
id, then attempt delivery; both the ValueError and the send failure are
caught, logged and turned into a per-recipient outcome. -/
def sendToOne (parseId : String → Option ℤ)
    (deliver : ℤ → Except String Unit) (raw : String) : SendResult :=
  match parseId raw with
  | none => SendResult.invalidId raw
  | some n =>
      match deliver (normalizeChat n) with
      | Except.ok _ => SendResult.sent (normalizeChat n)
      | Except.error _ => SendResult.failed (normalizeChat n)

/-- trend_scanner.py lines 1217-1246, `TrendScanner.send_telegram_alert`:
when the messaging client is up and recipient ids are configured
(`if self.telegram and TELEGRAM_CHAT_IDS`), deliver to each configured
recipient in turn (`chat_ids` models the comma-split id list; `none` models a
missing or empty configuration); otherwise do nothing. The function returns
the per-recipient outcomes and never raises to its caller. -/
def send_telegram_alert (parseId : String → Option ℤ)
    (deliver : ℤ → Except String Unit) (telegram_ready : Bool)
    (chat_ids : Option (List String)) : List SendResult :=
  match telegram_ready, chat_ids with
  | true, some ids => ids.map (sendToOne parseId deliver)
  | _, _ => []

/-- C8: alert dispatch processes each configured recipient independently —
the result list is exactly the per-recipient outcomes in order, so one
recipient's delivery failure cannot affect any other recipient — and any
recipient whose own id parses and whose own delivery succeeds receives the
alert, whatever happens for the other recipients; no failure is raised to the
caller (the function totalizes every per-recipient error into an outcome). -/
theorem alert_dispatch_isolation (parseId : String → Option ℤ)
    (deliver : ℤ → Except String Unit) (ids : List String) :
    send_telegram_alert parseId deliver true (some ids) =
      ids.map (sendToOne parseId deliver) ∧
    (∀ raw ∈ ids, ∀ n : ℤ, parseId raw = some n →
      deliver (normalizeChat n) = Except.ok () →
      SendResult.sent (normalizeChat n) ∈
        send_telegram_alert parseId deliver true (some ids)) := by
  constructor
  · rfl
  · intro raw hraw n hn hdel
    have hone : sendToOne parseId deliver raw = SendResult.sent (normalizeChat n) := by
      unfold sendToOne
      rw [hn]
      dsimp only
      rw [hdel]
    exact List.mem_map.mpr ⟨raw, hraw, hone⟩

/-- A concrete parse map for witnesses: the ids used below, as Python's
`int()` would parse them. -/
def parseSimple : String → Option ℤ := fun raw =>
  if raw = "0" then some 0
  else if raw = "123" then some 123
  else if raw = "456" then some 456
  else none

/-- A delivery stub that fails for chat -123 and succeeds elsewhere. -/
def deliverFailFirst : ℤ → Except String Unit := fun chat =>
  if chat = -123 then Except.error "network failure" else Except.ok ()

/-- A delivery stub that always succeeds. -/
def deliverOk : ℤ → Except String Unit := fun _ => Except.ok ()

/-- Witness for C8, scenario D: with two configured recipients and delivery
failing for the first, the second still receives the alert. -/
theorem alert_dispatch_isolation_witness :
    ("456" ∈ ["123", "456"] ∧ parseSimple "456" = some 456 ∧
      deliverFailFirst (normalizeChat 456) = Except.ok ()) ∧
    (send_telegram_alert parseSimple deliverFailFirst true (some ["123", "456"]) =
      [SendResult.failed (-123), SendResult.sent (-456)] ∧
     SendResult.sent (-456) ∈
       send_telegram_alert parseSimple deliverFailFirst true (some ["123", "456"])) := by
  have h1 : "456" ∈ ["123", "456"] := by simp
  have h2 : parseSimple "456" = some 456 := by decide
  have h3 : deliverFailFirst (normalizeChat 456) = Except.ok () := rfl
  have hmem := (alert_dispatch_isolation parseSimple deliverFailFirst
    ["123", "456"]).2 "456" h1 456 h2 h3
  exact ⟨⟨h1, h2, h3⟩, ⟨rfl, hmem⟩⟩

/-- Counterexample for C9 as stated: the configured recipient id "0" parses
as the integer 0, is not sign-flipped (`0 > 0` is false), and the message is
sent to chat id 0 — a numeric chat id actually used for sending that is not
negative. -/
theorem zero_chat_id_counterexample :
    send_telegram_alert parseSimple deliverOk true (some ["0"]) =
      [SendResult.sent 0] ∧ ¬((0 : ℤ) < 0) := by
  exact ⟨rfl, by norm_num⟩

/-- C9 (amended): every configured recipient id that parses as a positive
integer is sign-flipped and the send is addressed to its negation; ids that
parse as zero or negative are used unchanged. Hence every numeric chat id
actually used for sending is non-positive — negative whenever the configured
id is nonzero, and 0 exactly for the configured id 0. -/
theorem sign_flip_normalization (parseId : String → Option ℤ)
    (deliver : ℤ → Except String Unit) (raw : String) (n : ℤ)
    (h : parseId raw = some n) :
    (0 < n →
      (sendToOne parseId deliver raw = SendResult.sent (-n) ∨
       sendToOne parseId deliver raw = SendResult.failed (-n))) ∧
    (∀ c : ℤ,
      (sendToOne parseId deliver raw = SendResult.sent c ∨
       sendToOne parseId deliver raw = SendResult.failed c) →
      c ≤ 0 ∧ (n ≠ 0 → c < 0)) := by
  unfold sendToOne
  rw [h]
  dsimp only
  constructor
  · intro hn
    rw [show normalizeChat n = -n by unfold normalizeChat; rw [if_pos hn]]
    cases deliver (-n) with
    | ok u => exact Or.inl rfl
    | error e => exact Or.inr rfl
  · intro c hc
    have hcn : c = normalizeChat n := by
      cases hde : deliver (normalizeChat n) with
      | ok u =>
          rw [hde] at hc
          dsimp only at hc
          rcases hc with hc | hc
          · injection hc with h2
            exact h2.symm
          · exact absurd hc (by simp)
      | error e =>
          rw [hde] at hc
          dsimp only at hc
          rcases hc with hc | hc
          · exact absurd hc (by simp)
          · injection hc with h2
            exact h2.symm
    rw [hcn]
    unfold normalizeChat
    by_cases hn : 0 < n
    · rw [if_pos hn]
      omega
    · rw [if_neg hn]
      omega

/-- Witness for C9's amended claim at the configured id "456". -/
theorem sign_flip_normalization_witness :
    parseSimple "456" = some 456 ∧
    ((0 < (456 : ℤ) →
      (sendToOne parseSimple deliverOk "456" = SendResult.sent (-456) ∨
       sendToOne parseSimple deliverOk "456" = SendResult.failed (-456))) ∧
     (∀ c : ℤ,
       (sendToOne parseSimple deliverOk "456" = SendResult.sent c ∨
        sendToOne parseSimple deliverOk "456" = SendResult.failed c) →
       c ≤ 0 ∧ ((456 : ℤ) ≠ 0 → c < 0))) := by
  have h : parseSimple "456" = some 456 := by decide
  exact ⟨h, sign_flip_normalization parseSimple deliverOk "456" 456 h⟩

/-- The startup fault of `TrendScanner.start_app` (trend_scanner.py lines
562-579): building the messaging client with a missing bot credential raises;
`start_app` logs the error and re-raises it. -/
inductive StartupError where
  | missingToken
deriving DecidableEq

/-- `TrendScanner.start_app` as seen by `main`: it raises when the bot
credential is absent and succeeds otherwise. -/
def start_app (token : Option String) : Except StartupError Unit :=
  match token with
  | none => Except.error StartupError.missingToken
  | some _ => Except.ok ()

/-- One event observed by `main`'s loop body. -/
inductive MainEvent where
  | startupOk
  | startupError
  | keyboardInterrupt
deriving DecidableEq

/-- The event `main` observes for a given configured token. -/
def startupEvent (token : Option String) : MainEvent :=
  match start_app token with
  | Except.error _ => MainEvent.startupError
  | Except.ok _ => MainEvent.startupOk

/-- trend_scanner.py lines 1295-1322, `main`'s `while True` loop:
KeyboardInterrupt breaks the loop (the process then shuts down with status
0); any other exception — including a startup failure from missing
configuration — is logged, the loop sleeps 60 seconds and retries; a
successful startup enters `run_continuous_scan`, which never returns.
`mainRun` consumes a trace of observed events and yields `some code` when the
process exits with that status, `none` while it is still running. -/
def mainRun : List MainEvent → Option ℕ
  | [] => none
  | MainEvent.keyboardInterrupt :: _ => some 0
  | MainEvent.startupError :: rest => mainRun rest
  | MainEvent.startupOk :: _ => none

/-- Counterexample for C3 as stated: with the bot credential missing, the
startup failure is caught by `main`'s loop and the process keeps running
(restarting every 60 seconds) — after three failed startup attempts it has
not exited at all, let alone with a non-zero status. -/
theorem missing_config_no_exit_counterexample :
    startupEvent none = MainEvent.startupError ∧
    mainRun [startupEvent none, startupEvent none, startupEvent none] = none := by
  exact ⟨rfl, rfl⟩

/-- C3 (amended): missing messaging configuration is never fatal. A startup
failure (such as `start_app` raising on a missing bot credential) is caught
by `main`, which sleeps 60 seconds and retries indefinitely; the process
exits only on a keyboard interrupt, and then with status 0 — it never exits
with a non-zero status; and missing recipient ids merely make alert dispatch
a silent no-op. -/
theorem missing_config_retry_forever :
    (∀ tr : List MainEvent, ∀ code : ℕ, mainRun tr = some code → code = 0) ∧
    (∀ tr : List MainEvent,
      mainRun (MainEvent.startupError :: tr) = mainRun tr) ∧
    (start_app none = Except.error StartupError.missingToken) ∧
    (∀ (parseId : String → Option ℤ) (deliver : ℤ → Except String Unit)
      (ready : Bool), send_telegram_alert parseId deliver ready none = []) := by
  refine ⟨?_, fun tr => rfl, rfl, ?_⟩
  · intro tr
    induction tr with
    | nil => intro code hcode; exact absurd hcode (by simp [mainRun])
    | cons e rest ih =>
        intro code hcode
        cases e with
        | startupOk => exact absurd hcode (by simp [mainRun])
        | startupError => exact ih code hcode
        | keyboardInterrupt =>
            rw [show mainRun (MainEvent.keyboardInterrupt :: rest) = some 0
              from rfl] at hcode
            exact (Option.some.injEq _ _).mp hcode.symm
  · intro parseId deliver ready
    cases ready <;> rfl

/-- Witness for C3's amended claim: the only exiting trace exits with status
0, a startup error leaves the run state unchanged, and dispatch with missing
recipient configuration does nothing. -/
theorem missing_config_retry_forever_witness :
    (mainRun [MainEvent.keyboardInterrupt] = some 0 ∧ (0 : ℕ) = 0) ∧
    mainRun [MainEvent.startupError] = mainRun [] ∧
    send_telegram_alert parseSimple deliverOk true none = [] := by
  exact ⟨⟨rfl, missing_config_retry_forever.1 [MainEvent.keyboardInterrupt] 0 rfl⟩,
    missing_config_retry_forever.2.1 [],
    missing_config_retry_forever.2.2.2 parseSimple deliverOk true⟩
